import Mathlib

set_option linter.unusedVariables false

namespace FinchSpec

/-! Shallow embedding of the finch-buck2 CMake-to-Buck2 converter, translated
from the C++ sources under src/.  Each definition carries the name of the
source function or type it embeds. -/

/-- Mirrors enum class Confidence (include/finch/analyzer/evaluation_context.hpp),
with enumerator values Certain = 0, Likely = 1, Uncertain = 2, Unknown = 3. -/
inductive Confidence where
  | Certain
  | Likely
  | Uncertain
  | Unknown
deriving DecidableEq

/-- Numeric enumerator value of a Confidence, as used by std::min in the C++. -/
def Confidence.code : Confidence → Nat
  | .Certain => 0
  | .Likely => 1
  | .Uncertain => 2
  | .Unknown => 3

/-- Models std::min applied to two Confidence values; std::min(a, b) returns b
exactly when b < a under the enumerator order, otherwise a. -/
def Confidence.cppMin (a b : Confidence) : Confidence :=
  if b.code < a.code then b else a

/-- Mirrors Value = std::variant of std::string, bool, double and
std::vector of std::string (evaluation_context.hpp).  The double alternative is
modelled by an integer: the only doubles the evaluator constructs come from
NumberLiteral::as_float on parsed CMake integers, and value_helpers::to_string
prints such a value through ostringstream, which agrees with plain decimal
printing on the integer range used by every claim (the agreement breaks only at
magnitudes of a million and above, where ostringstream switches to scientific
notation; no claim involves such a number). -/
inductive Value where
  | str (s : String)
  | boolean (b : Bool)
  | num (n : Int)
  | list (xs : List String)
deriving DecidableEq

/-- Mirrors value_helpers::to_string (evaluation_context.cpp): strings verbatim,
bools as TRUE or FALSE, numbers via ostringstream (see the Value.num caveat),
lists joined with semicolons. -/
def value_to_string : Value → String
  | .str s => s
  | .boolean b => if b then "TRUE" else "FALSE"
  | .num n => toString n
  | .list xs => String.intercalate ";" xs

/-- Mirrors std::string::starts_with, via the character list so that concrete
instances reduce definitionally. -/
def string_starts_with (s p : String) : Bool :=
  p.toList.isPrefixOf s.toList

/-- Mirrors std::string::ends_with, via the character list. -/
def string_ends_with (s p : String) : Bool :=
  p.toList.isSuffixOf s.toList

/-- Mirrors value_helpers::is_truthy (evaluation_context.cpp). -/
def is_truthy : Value → Bool
  | .str v =>
      v != "" && v != "0" && v != "OFF" && v != "NO" && v != "FALSE" &&
      v != "N" && v != "IGNORE" && v != "NOTFOUND" && !(string_ends_with v "-NOTFOUND")
  | .boolean b => b
  | .num n => n != 0
  | .list xs => !xs.isEmpty

/-- Mirrors struct EvaluatedValue (evaluation_context.hpp). -/
structure EvaluatedValue where
  value : Value
  confidence : Confidence
deriving DecidableEq

/-- Mirrors EvaluatedValue::is_certain. -/
def EvaluatedValue.is_certain (v : EvaluatedValue) : Bool :=
  v.confidence == Confidence.Certain

/-- Mirrors Target::Type (include/finch/analyzer/project_analysis.hpp). -/
inductive TargetType where
  | StaticLibrary
  | SharedLibrary
  | ExecutableTarget
  | InterfaceLibrary
  | CustomTarget
  | Unknown
deriving DecidableEq

/-- Mirrors struct Target (project_analysis.hpp); the std::filesystem::path
source_directory is a string here, and the properties unordered_map an
association list. -/
structure Target where
  name : String := ""
  type : TargetType := .Unknown
  source_directory : String := ""
  sources : List String := []
  headers : List String := []
  include_directories : List String := []
  compile_definitions : List String := []
  compile_options : List String := []
  link_libraries : List String := []
  properties : List (String × String) := []
deriving DecidableEq

/-- Association-list lookup; models unordered_map::find. -/
def assoc_get {α : Type} : List (String × α) → String → Option α
  | [], _ => none
  | (k', v) :: rest, k => if k' = k then some v else assoc_get rest k

/-- Association-list write; models the insert-or-overwrite of map subscript
assignment (position of an existing key is kept, new keys are appended). -/
def assoc_set {α : Type} : List (String × α) → String → α → List (String × α)
  | [], k, v => [(k, v)]
  | (k', v') :: rest, k, v =>
      if k' = k then (k, v) :: rest else (k', v') :: assoc_set rest k v

/-- Mirrors class EvaluationContext (evaluation_context.hpp).  The parent
pointer of the C++ class is omitted: EvaluationContext::create_child_scope has
no callers anywhere in src/, so in every evaluation path the parent is null and
the parent walks in get_variable, get_platform_check and list_variables
degenerate to lookups in the single root scope modelled here. -/
structure EvaluationContext where
  variables_ : List (String × EvaluatedValue) := []
  cache_variables_ : List (String × EvaluatedValue) := []
  platform_checks_ : List (String × Bool) := []
  targets_ : List Target := []
deriving DecidableEq

/-- Mirrors EvaluationContext::set_variable (evaluation_context.cpp). -/
def EvaluationContext.set_variable (ctx : EvaluationContext) (name : String)
    (value : Value) (confidence : Confidence) : EvaluationContext :=
  { ctx with variables_ := assoc_set ctx.variables_ name ⟨value, confidence⟩ }

/-- Mirrors EvaluationContext::get_variable (parent chain degenerate, see
EvaluationContext). -/
def EvaluationContext.get_variable (ctx : EvaluationContext) (name : String) :
    Option EvaluatedValue :=
  assoc_get ctx.variables_ name

/-- Mirrors EvaluationContext::set_cache_variable. -/
def EvaluationContext.set_cache_variable (ctx : EvaluationContext) (name : String)
    (value : Value) (confidence : Confidence) : EvaluationContext :=
  { ctx with cache_variables_ := assoc_set ctx.cache_variables_ name ⟨value, confidence⟩ }

/-- Mirrors EvaluationContext::get_cache_variable (cache variables never
consult the parent scope, also in the C++). -/
def EvaluationContext.get_cache_variable (ctx : EvaluationContext) (name : String) :
    Option EvaluatedValue :=
  assoc_get ctx.cache_variables_ name

/-- Mirrors EvaluationContext::add_target. -/
def EvaluationContext.add_target (ctx : EvaluationContext) (t : Target) :
    EvaluationContext :=
  { ctx with targets_ := ctx.targets_ ++ [t] }

/-- Mirrors EvaluationContext::initialize_builtin_variables
(evaluation_context.cpp) with the preprocessor taking the final #else branch,
i.e. a Unix host that is neither Windows nor Apple, which is the host the
claims specify.  Variables are set in source order. -/
def EvaluationContext.initialize_builtin_variables (ctx : EvaluationContext) :
    EvaluationContext :=
  ctx.set_variable "CMAKE_SOURCE_DIR" (.str "/source") .Uncertain
    |>.set_variable "CMAKE_BINARY_DIR" (.str "/build") .Uncertain
    |>.set_variable "CMAKE_CURRENT_SOURCE_DIR" (.str "/source") .Uncertain
    |>.set_variable "CMAKE_CURRENT_BINARY_DIR" (.str "/build") .Uncertain
    |>.set_variable "UNIX" (.str "1") .Certain
    |>.set_variable "LINUX" (.str "1") .Certain
    |>.set_variable "WIN32" (.str "") .Certain
    |>.set_variable "WINDOWS" (.str "") .Certain
    |>.set_variable "APPLE" (.str "") .Certain
    |>.set_variable "CMAKE_CXX_COMPILER_ID" (.str "Generic") .Uncertain
    |>.set_variable "CMAKE_CXX_STANDARD" (.str "17") .Likely
    |>.set_variable "CMAKE_C_COMPILER_ID" (.str "Generic") .Uncertain
    |>.set_variable "CMAKE_C_STANDARD" (.str "11") .Likely
    |>.set_variable "CMAKE_BUILD_TYPE" (.str "Release") .Uncertain
    |>.set_variable "TRUE" (.str "1") .Certain
    |>.set_variable "FALSE" (.str "") .Certain
    |>.set_variable "ON" (.str "ON") .Certain
    |>.set_variable "OFF" (.str "OFF") .Certain
    |>.set_variable "YES" (.str "1") .Certain
    |>.set_variable "NO" (.str "") .Certain

/-- The empty root context (a default-constructed EvaluationContext). -/
def empty_context : EvaluationContext := {}

/-- The dollar character starting a variable reference. -/
def dollarChar : Char := '$'

/-- The opening brace character, written via Char.ofNat. -/
def lbrace : Char := Char.ofNat 123

/-- The closing brace character, written via Char.ofNat. -/
def rbrace : Char := Char.ofNat 125

/-- Leftmost match of the variable-reference regex of
CMakeEvaluator::interpolate_string (a dollar, an opening brace, one or more
non-closing-brace characters, a closing brace) in a character list, returned
as the match position relative to the start of the list together with the
captured content; none when no match exists.  Mirrors std::regex_search with
that pattern: at each candidate position the capture is the run of
non-closing-brace characters, which must be non-empty and be followed by a
closing brace, otherwise the search moves one character to the right. -/
def find_var_ref : List Char → Option (Nat × List Char)
  | [] => none
  | c :: rest =>
    if c = dollarChar ∧ rest.head? = some lbrace then
      let rest2 := rest.tail
      let content := rest2.takeWhile (fun x => x ≠ rbrace)
      if content.length > 0 ∧ (rest2.drop content.length).head? = some rbrace then
        some (0, content)
      else
        (find_var_ref rest).map (fun pc => (pc.1 + 1, pc.2))
    else
      (find_var_ref rest).map (fun pc => (pc.1 + 1, pc.2))

/-- Mirrors CMakeEvaluator::expand_variable_reference (cmake_evaluator.cpp):
environment references are returned as their own literal text wrapped back in
a dollar-brace reference, otherwise the variable map and then the cache map
are consulted, and an unknown name is an error. -/
def expand_variable_reference (ctx : EvaluationContext) (var_name : String) :
    Except String String :=
  if string_starts_with var_name "ENV\x7b" && string_ends_with var_name "\x7d" then
    .ok ("$\x7b" ++ var_name ++ "\x7d")
  else
    match ctx.get_variable var_name with
    | some v => .ok (value_to_string v.value)
    | none =>
      match ctx.get_cache_variable var_name with
      | some v => .ok (value_to_string v.value)
      | none => .error ("Unknown variable: " ++ var_name)

/-- The while loop of CMakeEvaluator::interpolate_string: s is the original
string (the regex is always searched over it), result the string being
rewritten, search_start the current search position in s.  A resolvable
reference at position p of length len is replaced in result (std::string::
replace, modelled by take and drop, which clamp where the C++ would throw
std::out_of_range) and the search resumes at p plus the expansion's length;
an unresolvable reference is skipped (search resumes after the match).  The
fuel argument bounds the iteration count; see interpolate_string. -/
def interpolate_loop (ctx : EvaluationContext) (s : List Char) :
    List Char → Nat → Nat → List Char
  | result, _, 0 => result
  | result, search_start, fuel + 1 =>
    match find_var_ref (s.drop search_start) with
    | none => result
    | some (rel, content) =>
      let p := search_start + rel
      let len := content.length + 3
      match expand_variable_reference ctx (String.mk content) with
      | .ok expanded =>
        interpolate_loop ctx s
          (result.take p ++ expanded.toList ++ result.drop (p + len))
          (p + expanded.length) fuel
      | .error _ => interpolate_loop ctx s result (p + len) fuel

/-- Mirrors CMakeEvaluator::interpolate_string.  Like the C++ function, whose
only return statement wraps the result string, this always produces the
success variant: the error constructor is never built, which is what makes the
Uncertain fallback in the StringLiteral visitor dead code.  The C++ loop fails
to terminate (eventually throwing from std::string::replace) in the
pathological case of a reference whose expansion is empty and re-matched at
the same search position; the fuel bound of length + 1 covers every
terminating execution, since any other iteration advances the search position
by at least one and a match needs at least four characters. -/
def interpolate_string (ctx : EvaluationContext) (s : String) :
    Except String String :=
  .ok (String.mk (interpolate_loop ctx s.toList s.toList 0 (s.toList.length + 1)))

/-- Expression-level AST nodes (include/finch/parser/ast/literals.hpp and
expressions.hpp), the node shapes produced by Parser::parse_argument and
Parser::parse_expression: string / number / boolean literals, variable
references, identifiers, generator expressions, bracket expressions and list
expressions.  The numberLit payload is the integer value (see Value.num for
the double-printing caveat); var covers ast::Variable (the interpolated-string
and unquoted-argument splitting of the parser produces these for dollar-brace
references). -/
inductive Expr where
  | stringLit (value : String) (quoted : Bool)
  | numberLit (text : String) (value : Int)
  | booleanLit (value : Bool) (originalText : String)
  | var (name : String)
  | identifier (name : String)
  | generatorExpr (expression : String)
  | bracketExpr (content : Expr)
  | listExpr (elements : List Expr)

mutual

/-- Mirrors the expression cases of the CMakeEvaluator visitor
(cmake_evaluator.cpp): visit(StringLiteral) attempts interpolation and keeps
the original string at Uncertain on failure (a dead branch, see
interpolate_string); visit(NumberLiteral) and visit(BooleanLiteral) are
Certain; visit(Variable) falls back to the literal dollar-brace reference at
Unknown; visit(Identifier) is the name at Certain; visit(GeneratorExpression)
wraps the expression text at Unknown; visit(BracketExpression) evaluates the
content; visit(ListExpression) collects element strings. -/
def evalExpr (ctx : EvaluationContext) : Expr → EvaluatedValue
  | .stringLit v _ =>
    match interpolate_string ctx v with
    | .ok interpolated => ⟨.str interpolated, .Certain⟩
    | .error _ => ⟨.str v, .Uncertain⟩
  | .numberLit _ n => ⟨.num n, .Certain⟩
  | .booleanLit b _ => ⟨.boolean b, .Certain⟩
  | .var name =>
    match ctx.get_variable name with
    | some v => v
    | none => ⟨.str ("$\x7b" ++ name ++ "\x7d"), .Unknown⟩
  | .identifier name => ⟨.str name, .Certain⟩
  | .generatorExpr t => ⟨.str ("$\x7b" ++ t ++ "\x7d"), .Unknown⟩
  | .bracketExpr e => evalExpr ctx e
  | .listExpr elements =>
    let (vals, conf) := evalExprList ctx elements .Certain
    ⟨.list vals, conf⟩

/-- Mirrors the element loops of visit(ListExpression) and of the multi-value
form of evaluate_set_command, which are textually identical in the C++: each
element is rendered with value_helpers::to_string and the running confidence
is the std::min of the accumulator and the element's confidence, started at
Certain by the caller.  The has_error break of the C++ is dead for expression
elements, whose evaluation cannot error. -/
def evalExprList (ctx : EvaluationContext) :
    List Expr → Confidence → List String × Confidence
  | [], acc => ([], acc)
  | e :: rest, acc =>
    let v := evalExpr ctx e
    let (vals, conf) := evalExprList ctx rest (Confidence.cppMin acc v.confidence)
    (value_to_string v.value :: vals, conf)

end

/-- Mirrors CMakeEvaluator::evaluate_condition for expression conditions, the
only condition shapes Parser::parse_expression constructs; expression
evaluation cannot error, so the error propagation of the C++ is dead here and
the result is the plain truthiness of the evaluated value. -/
def evaluate_condition (ctx : EvaluationContext) (condition : Expr) : Bool :=
  is_truthy (evalExpr ctx condition).value

/-- The evaluator's result type, modelling Result of EvaluatedValue and
AnalysisError by the error's message. -/
abbrev EvalResult := Except String EvaluatedValue

/-- Mirrors CMakeEvaluator::evaluate_set_command.  The name argument must
evaluate with Certain confidence; the C++ then reads the name with
std::get on the string alternative, which throws std::bad_variant_access for a
non-string value - that throw is modelled as an error result.  Two arguments
store a single value; more store a list of strings with the accumulated
std::min confidence. -/
def evaluate_set_command (ctx : EvaluationContext) (args : List Expr) :
    EvaluationContext × EvalResult :=
  match args with
  | a0 :: a1 :: rest =>
    let name_result := evalExpr ctx a0
    if name_result.is_certain then
      match name_result.value with
      | .str var_name =>
        match rest with
        | [] =>
          let value_result := evalExpr ctx a1
          (ctx.set_variable var_name value_result.value value_result.confidence,
           .ok ⟨.str "", .Certain⟩)
        | _ =>
          let (list_values, min_confidence) := evalExprList ctx (a1 :: rest) .Certain
          (ctx.set_variable var_name (.list list_values) min_confidence,
           .ok ⟨.str "", .Certain⟩)
      | _ => (ctx, .error "bad_variant_access")
    else (ctx, .error "Cannot determine variable name")
  | _ => (ctx, .error "set() requires at least 2 arguments")

/-- Mirrors CMakeEvaluator::evaluate_option_command: the option name is the
first argument rendered as a string; with three or more arguments the LAST
argument is evaluated and compared against ON, TRUE, YES and 1; the name is
stored as a cache variable holding ON or OFF at Uncertain confidence.  The
regular variable map is not touched. -/
def evaluate_option_command (ctx : EvaluationContext) (args : List Expr) :
    EvaluationContext × EvalResult :=
  match args with
  | a0 :: _ :: rest =>
    let name_result := evalExpr ctx a0
    let option_name := value_to_string name_result.value
    let default_value :=
      match rest.getLast? with
      | some last =>
        let value_str := value_to_string (evalExpr ctx last).value
        value_str == "ON" || value_str == "TRUE" || value_str == "YES" ||
          value_str == "1"
      | none => false
    (ctx.set_cache_variable option_name
      (.str (if default_value then "ON" else "OFF")) .Uncertain,
     .ok ⟨.str "", .Certain⟩)
  | _ => (ctx, .error "option() requires at least 2 arguments")

/-- Mirrors CMakeEvaluator::evaluate_project_command: the first argument is
stored as PROJECT_NAME and CMAKE_PROJECT_NAME at Certain confidence.  No other
argument is inspected; in particular a VERSION argument is ignored and
PROJECT_VERSION is never written. -/
def evaluate_project_command (ctx : EvaluationContext) (args : List Expr) :
    EvaluationContext × EvalResult :=
  match args with
  | [] => (ctx, .ok ⟨.str "", .Certain⟩)
  | a0 :: _ =>
    let project_name := value_to_string (evalExpr ctx a0).value
    let ctx1 := ctx.set_variable "PROJECT_NAME" (.str project_name) .Certain
    let ctx2 := ctx1.set_variable "CMAKE_PROJECT_NAME" (.str project_name) .Certain
    (ctx2, .ok ⟨.str "", .Certain⟩)

/-- The keyword-scanning loop of evaluate_cmake_minimum_required: the first
index i strictly below size - 1 whose argument renders as VERSION yields
i + 1; zero means not found (index zero can never be a hit's successor
position zero, matching the C++ sentinel). -/
def find_version_idx (ctx : EvaluationContext) : List Expr → Nat → Nat
  | [], _ => 0
  | [_], _ => 0
  | a :: rest, i =>
    if value_to_string (evalExpr ctx a).value == "VERSION" then i + 1
    else find_version_idx ctx rest (i + 1)

/-- Mirrors CMakeEvaluator::evaluate_cmake_minimum_required. -/
def evaluate_cmake_minimum_required (ctx : EvaluationContext) (args : List Expr) :
    EvaluationContext × EvalResult :=
  if args.length < 2 then
    (ctx, .error "cmake_minimum_required() requires VERSION argument")
  else
    let version_idx := find_version_idx ctx args 0
    if version_idx > 0 ∧ version_idx < args.length then
      match args.get? version_idx with
      | some a =>
        (ctx.set_variable "CMAKE_MINIMUM_REQUIRED_VERSION"
          (.str (value_to_string (evalExpr ctx a).value)) .Certain,
         .ok ⟨.str "", .Certain⟩)
      | none => (ctx, .ok ⟨.str "", .Certain⟩)
    else (ctx, .ok ⟨.str "", .Certain⟩)

/-- Mirrors CMakeEvaluator::evaluate_message_command: a no-op. -/
def evaluate_message_command (ctx : EvaluationContext) (args : List Expr) :
    EvaluationContext × EvalResult :=
  (ctx, .ok ⟨.str "", .Certain⟩)

/-- Placeholder for std::filesystem::current_path() stored as
Target::source_directory by evaluate_add_library_command and
evaluate_add_executable_command; the concrete directory influences no claim. -/
def current_path : String := "/cwd"

/-- Mirrors CMakeEvaluator::evaluate_add_library_command: first argument names
the target, a second argument equal to SHARED, STATIC or INTERFACE selects the
library type (default static) and shifts the source list start, remaining
arguments become sources, and the target is appended to the context. -/
def evaluate_add_library_command (ctx : EvaluationContext) (args : List Expr) :
    EvaluationContext × EvalResult :=
  match args with
  | [] => (ctx, .error "add_library() requires target name")
  | a0 :: rest =>
    let target_name := value_to_string (evalExpr ctx a0).value
    let type_and_sources :=
      match rest with
      | [] => (TargetType.StaticLibrary, ([] : List Expr))
      | a1 :: rest2 =>
        let type_str := value_to_string (evalExpr ctx a1).value
        if type_str == "SHARED" then (TargetType.SharedLibrary, rest2)
        else if type_str == "STATIC" then (TargetType.StaticLibrary, rest2)
        else if type_str == "INTERFACE" then (TargetType.InterfaceLibrary, rest2)
        else (TargetType.StaticLibrary, a1 :: rest2)
    let sources := type_and_sources.2.map (fun a => value_to_string (evalExpr ctx a).value)
    let target : Target :=
      { name := target_name, type := type_and_sources.1, sources := sources,
        source_directory := current_path }
    (ctx.add_target target, .ok ⟨.str "", .Certain⟩)

/-- Mirrors CMakeEvaluator::evaluate_add_executable_command. -/
def evaluate_add_executable_command (ctx : EvaluationContext) (args : List Expr) :
    EvaluationContext × EvalResult :=
  match args with
  | [] => (ctx, .error "add_executable() requires target name")
  | a0 :: rest =>
    let target_name := value_to_string (evalExpr ctx a0).value
    let sources := rest.map (fun a => value_to_string (evalExpr ctx a).value)
    let target : Target :=
      { name := target_name, type := TargetType.ExecutableTarget,
        sources := sources, source_directory := current_path }
    (ctx.add_target target, .ok ⟨.str "", .Certain⟩)

/-- The visibility keywords skipped by the three target property-setter
commands. -/
def is_visibility_keyword (s : String) : Bool :=
  s == "PUBLIC" || s == "PRIVATE" || s == "INTERFACE"

/-- The find-and-update loop shared by the three property-setter commands: the
first target whose name matches is rewritten and the loop breaks; when no
target matches, nothing is mutated. -/
def update_first_target (name : String) (f : Target → Target) :
    List Target → List Target
  | [] => []
  | t :: rest =>
      if t.name = name then f t :: rest else t :: update_first_target name f rest

/-- Mirrors CMakeEvaluator::evaluate_target_include_directories_command:
arguments after the target name are rendered to strings, visibility keywords
are skipped and the rest appended to the first matching target's include
directories; an unmatched target name leaves the context untouched and still
succeeds. -/
def evaluate_target_include_directories_command (ctx : EvaluationContext)
    (args : List Expr) : EvaluationContext × EvalResult :=
  match args with
  | a0 :: a1 :: rest =>
    let target_name := value_to_string (evalExpr ctx a0).value
    let items := ((a1 :: rest).map (fun a => value_to_string (evalExpr ctx a).value)).filter
      (fun s => !is_visibility_keyword s)
    let new_targets := update_first_target target_name
      (fun t => { t with include_directories := t.include_directories ++ items }) ctx.targets_
    ({ ctx with targets_ := new_targets }, .ok ⟨.str "", .Certain⟩)
  | _ => (ctx, .error "target_include_directories() requires target and directories")

/-- Mirrors CMakeEvaluator::evaluate_target_link_libraries_command (same
structure as the include-directories setter, appending to link_libraries). -/
def evaluate_target_link_libraries_command (ctx : EvaluationContext)
    (args : List Expr) : EvaluationContext × EvalResult :=
  match args with
  | a0 :: a1 :: rest =>
    let target_name := value_to_string (evalExpr ctx a0).value
    let items := ((a1 :: rest).map (fun a => value_to_string (evalExpr ctx a).value)).filter
      (fun s => !is_visibility_keyword s)
    let new_targets := update_first_target target_name
      (fun t => { t with link_libraries := t.link_libraries ++ items }) ctx.targets_
    ({ ctx with targets_ := new_targets }, .ok ⟨.str "", .Certain⟩)
  | _ => (ctx, .error "target_link_libraries() requires target and libraries")

/-- Mirrors CMakeEvaluator::evaluate_target_compile_definitions_command (same
structure, appending to compile_definitions). -/
def evaluate_target_compile_definitions_command (ctx : EvaluationContext)
    (args : List Expr) : EvaluationContext × EvalResult :=
  match args with
  | a0 :: a1 :: rest =>
    let target_name := value_to_string (evalExpr ctx a0).value
    let items := ((a1 :: rest).map (fun a => value_to_string (evalExpr ctx a).value)).filter
      (fun s => !is_visibility_keyword s)
    let new_targets := update_first_target target_name
      (fun t => { t with compile_definitions := t.compile_definitions ++ items }) ctx.targets_
    ({ ctx with targets_ := new_targets }, .ok ⟨.str "", .Certain⟩)
  | _ => (ctx, .error "target_compile_definitions() requires target and definitions")

/-- Mirrors CMakeEvaluator::evaluate_if_command: the if() command itself is a
no-op (control flow is handled by visit(IfStatement)). -/
def evaluate_if_command (ctx : EvaluationContext) (args : List Expr) :
    EvaluationContext × EvalResult :=
  (ctx, .ok ⟨.str "", .Certain⟩)

/-- Mirrors the command dispatch of visit(CommandCall): recognized names go to
their evaluators, every other command evaluates to an empty string with
Unknown confidence and no error. -/
def evaluate_command (ctx : EvaluationContext) (name : String) (args : List Expr) :
    EvaluationContext × EvalResult :=
  if name == "set" then evaluate_set_command ctx args
  else if name == "if" then evaluate_if_command ctx args
  else if name == "cmake_minimum_required" then evaluate_cmake_minimum_required ctx args
  else if name == "option" then evaluate_option_command ctx args
  else if name == "project" then evaluate_project_command ctx args
  else if name == "message" then evaluate_message_command ctx args
  else if name == "add_library" then evaluate_add_library_command ctx args
  else if name == "add_executable" then evaluate_add_executable_command ctx args
  else if name == "target_include_directories" then
    evaluate_target_include_directories_command ctx args
  else if name == "target_link_libraries" then
    evaluate_target_link_libraries_command ctx args
  else if name == "target_compile_definitions" then
    evaluate_target_compile_definitions_command ctx args
  else (ctx, .ok ⟨.str "", .Unknown⟩)

/-- Statement-level AST nodes, mirroring the ASTNode variants the evaluator
visitor dispatches on (node.hpp).  The expr constructor embeds expression
nodes, which may appear wherever a statement is expected; cpmNode stands for
the four CPM node kinds, whose visitors all yield an empty Unknown value
without touching the context; whileStmt and forEachStmt bodies are never
evaluated by the visitor, so their conditions and items are kept only as far
as needed. -/
inductive Node where
  | expr (e : Expr)
  | cmd (name : String) (args : List Expr)
  | functionDef (name : String)
  | macroDef (name : String)
  | ifStmt (condition : Expr) (then_branch : List Node)
      (elseif_branches : List Node) (else_branch : List Node)
  | elseifMarker (condition : Expr)
  | elseMarker
  | whileStmt (condition : Expr) (body : List Node)
  | forEachStmt (body : List Node)
  | block (stmts : List Node)
  | file (stmts : List Node)
  | errorNode (message : String)
  | cpmNode

/-- Whether a node is an ast::ElseIfStatement, the check performed in
visit(IfStatement) by dynamic_cast and by the NodeType comparison. -/
def Node.is_elseif_marker : Node → Bool
  | .elseifMarker _ => true
  | _ => false

mutual

/-- Mirrors CMakeEvaluator::evaluate and the statement cases of the visitor
(cmake_evaluator.cpp): the first component is the evaluator's mutable
context reference after the visit, the second the final result_.
visit(IfStatement): a true condition evaluates the then branch; a false one
scans the interleaved elseif entries and, when none fired and an else branch
exists, evaluates the else branch; either way result_ ends as an empty Certain
value.  FunctionDef, MacroDef, ElseIfStatement, ElseStatement, WhileStatement,
ForEachStatement and the CPM nodes yield an empty Unknown value; Block and
File evaluate their statements in order and yield an empty Certain value;
ErrorNode yields an analysis error. -/
def evalNode (ctx : EvaluationContext) : Node → EvaluationContext × EvalResult
  | .expr e => (ctx, .ok (evalExpr ctx e))
  | .cmd name args => evaluate_command ctx name args
  | .functionDef _ => (ctx, .ok ⟨.str "", .Unknown⟩)
  | .macroDef _ => (ctx, .ok ⟨.str "", .Unknown⟩)
  | .ifStmt condition then_branch elseif_branches else_branch =>
    if evaluate_condition ctx condition then
      (evalNodes ctx then_branch, .ok ⟨.str "", .Certain⟩)
    else
      let scanned := scan_elseif_branches ctx elseif_branches
      let ctx2 := if !scanned.2 && !else_branch.isEmpty
                  then evalNodes scanned.1 else_branch else scanned.1
      (ctx2, .ok ⟨.str "", .Certain⟩)
  | .elseifMarker _ => (ctx, .ok ⟨.str "", .Unknown⟩)
  | .elseMarker => (ctx, .ok ⟨.str "", .Unknown⟩)
  | .whileStmt _ _ => (ctx, .ok ⟨.str "", .Unknown⟩)
  | .forEachStmt _ => (ctx, .ok ⟨.str "", .Unknown⟩)
  | .block stmts => (evalNodes ctx stmts, .ok ⟨.str "", .Certain⟩)
  | .file stmts => (evalNodes ctx stmts, .ok ⟨.str "", .Certain⟩)
  | .errorNode message => (ctx, .error message)
  | .cpmNode => (ctx, .ok ⟨.str "", .Unknown⟩)

/-- Sequential evaluation of a statement list: the visit loops of Block and
File and the branch bodies of visit(IfStatement); individual statement results
are discarded, exactly as in the C++. -/
def evalNodes (ctx : EvaluationContext) : List Node → EvaluationContext
  | [] => ctx
  | n :: rest => evalNodes (evalNode ctx n).1 rest

/-- The elseif scanning loop of visit(IfStatement) over the flat interleaved
elseif_branches list.  An ElseIfStatement marker with a true condition
evaluates the body entries that follow it up to the next marker and stops with
true; one with a false condition skips ahead; a non-marker entry at scan
position is passed over without evaluation.  The C++ skips a false branch's
body with an inner index loop that stops at the next ElseIfStatement, and its
outer loop's default case advances one entry at a time, so both skips are the
element-wise recursion below.  Note that Parser::parse_if_statement stores
plain condition expressions (not ElseIfStatement nodes) in elseif_branches, so
on parser output the dynamic_cast of the C++ never succeeds and every entry is
passed over. -/
def scan_elseif_branches (ctx : EvaluationContext) :
    List Node → EvaluationContext × Bool
  | [] => (ctx, false)
  | n :: rest =>
    match n with
    | .elseifMarker c =>
      if evaluate_condition ctx c then (eval_elseif_body ctx rest, true)
      else scan_elseif_branches ctx rest
    | _ => scan_elseif_branches ctx rest

/-- Evaluates the body of a taken elseif branch: the entries following its
marker up to the next ElseIfStatement marker. -/
def eval_elseif_body (ctx : EvaluationContext) : List Node → EvaluationContext
  | [] => ctx
  | n :: rest =>
    if n.is_elseif_marker then ctx
    else eval_elseif_body (evalNode ctx n).1 rest

end

/-- Mirrors struct ProjectAnalysis (project_analysis.hpp); the unordered_maps
are association lists assembled in the key order of the list traversals in
CMakeFileEvaluator::analyze. -/
structure ProjectAnalysis where
  project_name : String := ""
  project_version : String := ""
  targets : List Target := []
  global_variables : List (String × String) := []
  cache_variables : List (String × String) := []
  warnings : List String := []
deriving DecidableEq

/-- Insertion of a string into a sorted list, for the std::sort of
list_variables / list_cache_variables. -/
def insert_sorted (s : String) : List String → List String
  | [] => [s]
  | x :: rest => if s ≤ x then s :: x :: rest else x :: insert_sorted s rest

/-- Sorting by the lexicographic string order, modelling std::sort with
std::less on std::string (byte order; identical to the character order here
since all names involved are ASCII). -/
def sort_strings : List String → List String
  | [] => []
  | x :: rest => insert_sorted x (sort_strings rest)

/-- Removal of adjacent duplicates in a sorted list, modelling std::unique +
erase. -/
def dedup_sorted : List String → List String
  | [] => []
  | [x] => [x]
  | x :: y :: rest =>
      if x = y then dedup_sorted (y :: rest) else x :: dedup_sorted (y :: rest)

/-- Mirrors EvaluationContext::list_variables: the key set of the variable
map (the parent contribution is degenerate, see EvaluationContext), sorted
and with duplicates removed. -/
def EvaluationContext.list_variables (ctx : EvaluationContext) : List String :=
  dedup_sorted (sort_strings (ctx.variables_.map Prod.fst))

/-- Mirrors EvaluationContext::list_cache_variables: the cache keys, sorted
(the C++ does not apply std::unique here). -/
def EvaluationContext.list_cache_variables (ctx : EvaluationContext) : List String :=
  sort_strings (ctx.cache_variables_.map Prod.fst)

/-- Mirrors CMakeFileEvaluator::analyze (cmake_evaluator.cpp): the evaluator's
context is seeded by initialize_builtin_variables in the constructor, the File
node is evaluated (evaluate_file), and the ProjectAnalysis is assembled from
the resulting context: project_name and project_version are read back from the
variables PROJECT_NAME and PROJECT_VERSION (note that
evaluate_project_command never writes the latter), targets are copied, and the
global and cache variable maps are rendered to strings over the sorted key
lists. -/
def analyze (stmts : List Node) : Except String ProjectAnalysis :=
  let ctx0 := empty_context.initialize_builtin_variables
  let evaluated := evalNode ctx0 (.file stmts)
  match evaluated.2 with
  | .error e => .error e
  | .ok _ =>
    let ctx := evaluated.1
    let base : ProjectAnalysis := {}
    let a1 := match ctx.get_variable "PROJECT_NAME" with
      | some v => { base with project_name := value_to_string v.value }
      | none => base
    let a2 := match ctx.get_variable "PROJECT_VERSION" with
      | some v => { a1 with project_version := value_to_string v.value }
      | none => a1
    let a3 := { a2 with targets := ctx.targets_ }
    let a4 := { a3 with global_variables :=
      ctx.list_variables.filterMap (fun n =>
        (ctx.get_variable n).map (fun (v : EvaluatedValue) => (n, value_to_string v.value))) }
    let a5 := { a4 with cache_variables :=
      ctx.list_cache_variables.filterMap (fun n =>
        (ctx.get_cache_variable n).map (fun (v : EvaluatedValue) => (n, value_to_string v.value))) }
    .ok a5

/-- Mirrors the character test of TargetMapper::normalize_target_name
(target_mapper.cpp): std::isalnum in the C locale together with underscore
and dash keep the character, anything else is replaced by an underscore.
Bytes outside ASCII are replaced as well (feeding them to std::isalnum is
undefined behaviour in the C++; all names in the claims are ASCII). -/
def normalize_char (c : Char) : Char :=
  if c.isAlphanum || c = '_' || c = '-' then c else '_'

/-- Mirrors TargetMapper::normalize_target_name on the character list: every
character is filtered through normalize_char, and a leading decimal digit in
the result causes lib_ to be prepended. -/
def normalize_chars (cs : List Char) : List Char :=
  let normalized := cs.map normalize_char
  match normalized.head? with
  | some c =>
      if c.isDigit then 'l' :: 'i' :: 'b' :: '_' :: normalized else normalized
  | none => normalized

/-- Mirrors TargetMapper::normalize_target_name (target_mapper.cpp). -/
def normalize_target_name (cmake_name : String) : String :=
  String.mk (normalize_chars cmake_name.toList)

/-- Mirrors enum class Buck2RuleType (include/finch/generator/target_mapper.hpp). -/
inductive Buck2RuleType where
  | CxxLibrary
  | CxxBinary
  | CxxTest
  | FileGroup
  | PrebuiltCxxLibrary
  | HttpArchive
  | Unknown
deriving DecidableEq

/-- Mirrors TargetMapper::MappedTarget (target_mapper.hpp); the std::map
properties iterates in sorted key order, modelled by the list order of this
association list, and the optional platform_config is omitted (no rule
template reads it). -/
structure MappedTarget where
  name : String := ""
  rule_type : Buck2RuleType := .Unknown
  srcs : List String := []
  headers : List String := []
  deps : List String := []
  properties : List (String × String) := []
deriving DecidableEq

/-- The headers attribute line that CxxLibraryTemplate::generate emits in both
branches of its headers conditional (rule_templates.cpp). -/
def headers_glob_line : String :=
  "    headers = glob([\"**/*.h\", \"**/*.hpp\"]),\n"

/-- One element line of a srcs or deps list in the library template. -/
def quoted_item_line (s : String) : String :=
  "        \"" ++ s ++ "\",\n"

/-- Mirrors CxxLibraryTemplate::generate (rule_templates.cpp), concatenating
in emission order: header line with the target name, the srcs block when
sources exist, the headers glob attribute (emitted identically whether or not
the headers list is empty - the two branches of the C++ conditional append
the same line), visibility, header_namespace, the deps block when deps exist,
one line per custom property, and the closing parenthesis. -/
def CxxLibraryTemplate_generate (target : MappedTarget) : String :=
  "cxx_library(\n" ++
  ("    name = \"" ++ target.name ++ "\",\n") ++
  (if !target.srcs.isEmpty then
    "    srcs = [\n" ++ String.join (target.srcs.map quoted_item_line) ++ "    ],\n"
   else "") ++
  (if !target.headers.isEmpty then headers_glob_line else headers_glob_line) ++
  "    visibility = [\"PUBLIC\"],\n" ++
  ("    header_namespace = \"" ++ target.name ++ "\",\n") ++
  (if !target.deps.isEmpty then
    "    deps = [\n" ++ String.join (target.deps.map quoted_item_line) ++ "    ],\n"
   else "") ++
  String.join (target.properties.map (fun kv => "    " ++ kv.1 ++ " = " ++ kv.2 ++ ",\n")) ++
  ")"

/-- Mirrors lexer::TokenType (include/finch/parser/lexer/token.hpp). -/
inductive TokenType where
  | Identifier
  | String
  | Number
  | Variable
  | GeneratorExpr
  | LeftParen
  | RightParen
  | LeftBracket
  | RightBracket
  | Semicolon
  | Comment
  | BracketComment
  | Newline
  | Whitespace
  | Eof
  | Invalid
deriving DecidableEq

/-- A token as Parser::synchronize observes it: its type, and the string
payload that Token::get_value returns for identifiers (none models a
valueless variant alternative). -/
structure Token where
  type : TokenType
  value : Option String := none
deriving DecidableEq

/-- The Eof token the lexer reports once input is exhausted; Parser::current
keeps pulling such tokens past the end of the modelled stream. -/
def eof_token : Token := { type := .Eof }

/-- The identifier comparisons of Parser::synchronize (parser_errors.cpp),
verbatim: each is an exact std::string operator== comparison, including the
two literals target_ and find_ (the C++ does not perform a prefix test). -/
def is_sync_statement_starter (name : String) : Bool :=
  name == "if" || name == "foreach" || name == "while" || name == "function" ||
  name == "macro" || name == "set" || name == "add_library" ||
  name == "add_executable" || name == "target_" || name == "find_" ||
  name == "include" || name == "project" || name == "cmake_minimum_required"

/-- The statement-starter test of the synchronize loop: an Identifier token
whose string value passes is_sync_statement_starter. -/
def sync_token_is_starter (t : Token) : Bool :=
  t.type == TokenType.Identifier &&
    (match t.value with
     | some name => is_sync_statement_starter name
     | none => false)

/-- The while loop of Parser::synchronize, with fuel counting the in-stream
positions still ahead.  The loop body exits at Eof; otherwise it returns when
the previous token in the buffer was a Newline (a crossed statement boundary)
or when sync_token_is_starter accepts the current token, and advances one
token otherwise.  Positions at or beyond the stream length hold Eof tokens
(see eof_token), so the loop can only continue while current is inside the
stream and the fuel handed over by synchronize never runs out before the C++
loop exits. -/
def synchronize_loop (tokens : List Token) : Nat → Nat → Nat
  | current, 0 => current
  | current, fuel + 1 =>
    if (tokens.getD current eof_token).type == TokenType.Eof then current
    else if !(current == 0) &&
        (tokens.getD (current - 1) eof_token).type == TokenType.Newline then
      current
    else if sync_token_is_starter (tokens.getD current eof_token) then current
    else synchronize_loop tokens (current + 1) fuel

/-- Mirrors Parser::synchronize (parser_errors.cpp) over a fixed token
stream, returning the index current_ holds when the function returns.  The
panic-flag reset at entry has no bearing on the stopping position. -/
def synchronize (tokens : List Token) (current : Nat) : Nat :=
  synchronize_loop tokens current (tokens.length - current)

/-- Mirrors enum class CPMSourceType (include/finch/parser/ast/cpm_nodes.hpp). -/
inductive CPMSourceType where
  | GitHub
  | GitURL
  | URL
  | Local
deriving DecidableEq

/-- Mirrors struct CPMVersion (cpm_nodes.hpp): version string, the exact flag
defaulting to false, and the git_tag defaulting to the empty string. -/
structure CPMVersion where
  version : String := ""
  exact : Bool := false
  git_tag : String := ""
deriving DecidableEq

/-- Mirrors class CPMAddPackage (cpm_nodes.hpp): name, source type and source
string, optional version, the sorted options map, and the find_package
fallback flag.  The source_type_ member of a node on which set_source was
never called is an uninitialized enum in the C++; the model gives it the
GitHub default, and no claim reads the field of such a node. -/
structure CPMAddPackage where
  name : String
  source_type : CPMSourceType := .GitHub
  source : String := ""
  version : Option CPMVersion := none
  options : List (String × String) := []
  find_package_fallback : Bool := true
deriving DecidableEq

/-- Sorted insert-or-overwrite for the std::map behind CPMAddPackage::options. -/
def sorted_insert_pair : List (String × String) → String → String → List (String × String)
  | [], k, v => [(k, v)]
  | (k', v') :: rest, k, v =>
      if k = k' then (k, v) :: rest
      else if k < k' then (k, v) :: (k', v') :: rest
      else (k', v') :: sorted_insert_pair rest k v

/-- Mirrors CPMAddPackage::add_option (options_ is a std::map, so keys stay
sorted and duplicates overwrite). -/
def CPMAddPackage.add_option (p : CPMAddPackage) (key value : String) : CPMAddPackage :=
  { p with options := sorted_insert_pair p.options key value }

/-- Mirrors CPMParser::get_string_value (cpm_parser.cpp): StringLiteral values
and Identifier names are accepted, every other node kind is an error. -/
def get_string_value : Expr → Except String String
  | .stringLit v _ => .ok v
  | .identifier n => .ok n
  | _ => .error "Expected string literal or identifier"

/-- The character class excluded from the owner and repo captures of
GITHUB_SHORTHAND_REGEX: slash, at-sign and hash. -/
def shorthand_excluded (c : Char) : Bool :=
  c = '/' || c = '@' || c = '#'

/-- The ECMAScript dot used by the version capture of GITHUB_SHORTHAND_REGEX
and by VERSION_EXACT_REGEX / VERSION_MIN_REGEX: any character except a line
terminator. -/
def regex_dot_char (c : Char) : Bool :=
  c ≠ '\n' && c ≠ '\r'

/-- The part of GITHUB_SHORTHAND_REGEX after the optional gh: prefix: an owner
capture of one or more non-excluded characters, a slash, a repo capture of one
or more non-excluded characters, and an optional at-sign or hash followed by a
non-empty dot-matching version capture, anchored at both ends.  Because the
capture classes exclude their own delimiters the match is deterministic: each
capture extends exactly to the next excluded character.  An unmatched version
group renders as the empty string, as std::smatch does. -/
def match_shorthand_core (cs : List Char) : Option (String × String × String) :=
  let owner := cs.takeWhile (fun c => !shorthand_excluded c)
  let rest := cs.drop owner.length
  if owner.isEmpty then none
  else
    match rest with
    | '/' :: rest2 =>
      let repo := rest2.takeWhile (fun c => !shorthand_excluded c)
      let rest3 := rest2.drop repo.length
      if repo.isEmpty then none
      else
        match rest3 with
        | [] => some (String.mk owner, String.mk repo, "")
        | c :: ver =>
          if (c = '@' || c = '#') && !ver.isEmpty && ver.all regex_dot_char then
            some (String.mk owner, String.mk repo, String.mk ver)
          else none
    | _ => none

/-- std::regex_match against GITHUB_SHORTHAND_REGEX: the greedy optional gh:
prefix is consumed first when present, with a backtracking attempt on the
whole string when the remainder then fails to match. -/
def parse_github_shorthand_match (s : String) : Option (String × String × String) :=
  match s.toList with
  | 'g' :: 'h' :: ':' :: rest =>
    match match_shorthand_core rest with
    | some r => some r
    | none => match_shorthand_core s.toList
  | _ => match_shorthand_core s.toList

/-- Mirrors CPMParser::is_github_shorthand. -/
def is_github_shorthand (s : String) : Bool :=
  (parse_github_shorthand_match s).isSome

/-- Mirrors CPMParser::parse_github_shorthand: owner and repo are re-joined
into the repo spec, paired with the version capture (empty when absent). -/
def parse_github_shorthand (s : String) : Except String (String × String) :=
  match parse_github_shorthand_match s with
  | some (owner, repo, version) => .ok (owner ++ "/" ++ repo, version)
  | none => .error ("Invalid CPM shorthand syntax: " ++ s)

/-- The fallback branch of CPMParser::parse_version_string: the string is
stored verbatim with exact = false, and doubles as git_tag when it contains a
slash or a dash or is exactly forty characters long (a SHA-1 hash). -/
def version_plain (version_str : String) : CPMVersion :=
  let cs := version_str.toList
  { version := version_str, exact := false,
    git_tag :=
      if cs.contains '/' || cs.contains '-' || cs.length = 40 then version_str
      else "" }

/-- Mirrors CPMParser::parse_version_string: VERSION_EXACT_REGEX (a leading
at-sign followed by one or more dot-matching characters) marks the captured
remainder exact; VERSION_MIN_REGEX (a leading greater-equals) captures a
minimum version; everything else goes through the fallback.  Like the C++
function, this always returns the success variant. -/
def parse_version_string (version_str : String) : Except String CPMVersion :=
  match version_str.toList with
  | '@' :: rest =>
    if !rest.isEmpty && rest.all regex_dot_char then
      .ok { version := String.mk rest, exact := true }
    else .ok (version_plain version_str)
  | '>' :: '=' :: rest =>
    if !rest.isEmpty && rest.all regex_dot_char then
      .ok { version := String.mk rest, exact := false }
    else .ok (version_plain version_str)
  | _ => .ok (version_plain version_str)

/-- Mirrors CPMParser::parse_cpm_add_package_shorthand: the shorthand is
matched, the repo spec split at its first slash, the node named after the
repo with a GitHub source, and a non-empty version capture parsed into the
version field.  Note the version string handed to parse_version_string is the
capture AFTER the at-sign or hash separator, which the shorthand regex has
already consumed. -/
def parse_cpm_add_package_shorthand (shorthand : String) :
    Except String CPMAddPackage :=
  match parse_github_shorthand shorthand with
  | .error e => .error e
  | .ok (repo_spec, version_str) =>
    if !repo_spec.toList.contains '/' then
      .error "Invalid GitHub repository format"
    else
      let owner_chars := repo_spec.toList.takeWhile (fun c => c ≠ '/')
      let repo := String.mk (repo_spec.toList.drop (owner_chars.length + 1))
      let base : CPMAddPackage :=
        { name := repo, source_type := .GitHub, source := repo_spec }
      if version_str == "" then .ok base
      else
        match parse_version_string version_str with
        | .ok v => .ok { base with version := some v }
        | .error e => .error e

/-- Index of the first argument whose string value equals the keyword
(CPMParser::find_argument; the later pointer search of the C++ finds exactly
this first hit again). -/
def find_argument_idx (key : String) : List Expr → Option Nat
  | [] => none
  | a :: rest =>
    match get_string_value a with
    | .ok s =>
      if s == key then some 0
      else (find_argument_idx key rest).map (· + 1)
    | .error _ => (find_argument_idx key rest).map (· + 1)

/-- The NAME resolution of CPMParser::parse_cpm_add_package_full: a NAME
keyword with a string-valued successor argument names the package and keyword
processing starts at index zero; without a NAME keyword, a non-empty
string-valued first argument names the package and processing starts at index
one; otherwise the package cannot be built.  Returns the name and the start
index. -/
def cpm_full_get_name (args : List Expr) : Option (String × Nat) :=
  match find_argument_idx "NAME" args with
  | some idx =>
    if idx + 1 < args.length then
      match args.get? (idx + 1) with
      | some a =>
        match get_string_value a with
        | .ok n => some (n, 0)
        | .error _ => none
      | none => none
    else none
  | none =>
    match args with
    | a :: _ =>
      match get_string_value a with
      | .ok n => if n ≠ "" then some (n, 1) else none
      | .error _ => none
    | [] => none

/-- The keyword list that terminates the OPTIONS collection loop of
parse_cpm_add_package_full. -/
def cpm_options_stop (s : String) : Bool :=
  s == "DOWNLOAD_ONLY" || s == "EXCLUDE_FROM_ALL" || s == "SYSTEM" || s == "NO_CACHE"

/-- The OPTIONS collection loop of parse_cpm_add_package_full: arguments are
collected (string-valued or not) until one whose string value is a stop
keyword, which is left in place for the outer loop, or until the end. -/
def collect_option_args : List Expr → List Expr × List Expr
  | [] => ([], [])
  | a :: rest =>
    match get_string_value a with
    | .ok str =>
      if cpm_options_stop str then ([], a :: rest)
      else
        let cr := collect_option_args rest
        (a :: cr.1, cr.2)
    | .error _ =>
      let cr := collect_option_args rest
      (a :: cr.1, cr.2)

/-- Mirrors CPMParser::parse_options_block: an option argument whose string
contains a space splits at the first space into key and value, with a
colon-suffixed type stripped from the key; one without a space takes the next
string-valued option argument as its value (which is then skipped); non-string
arguments and a trailing valueless key contribute nothing.  Always succeeds,
as in the C++. -/
def parse_options_block (package : CPMAddPackage) : List Expr → CPMAddPackage
  | [] => package
  | a :: rest =>
    match get_string_value a with
    | .error _ => parse_options_block package rest
    | .ok opt_str =>
      let cs := opt_str.toList
      if cs.contains ' ' then
        let keyc := cs.takeWhile (fun c => c ≠ ' ')
        let valc := cs.drop (keyc.length + 1)
        let key := String.mk (keyc.takeWhile (fun c => c ≠ ':'))
        parse_options_block (package.add_option key (String.mk valc)) rest
      else
        match rest with
        | [] => package
        | b :: rest2 =>
          match get_string_value b with
          | .ok v => parse_options_block (package.add_option opt_str v) rest2
          | .error _ => parse_options_block package (b :: rest2)

/-- The remainder returned by collect_option_args is a suffix of the input, so
its length is bounded by the input length (used for the termination of the
keyword loop). -/
theorem collect_option_args_length_le (l : List Expr) :
    (collect_option_args l).2.length ≤ l.length := by
  induction l with
  | nil => simp [collect_option_args]
  | cons a rest ih =>
    simp only [collect_option_args]
    cases h : get_string_value a with
    | ok str =>
      by_cases hs : cpm_options_stop str
      · simp [hs]
      · simp [hs]
        omega
    | error e =>
      simp
      omega

/-- The keyword loop of CPMParser::parse_cpm_add_package_full over the
argument suffix starting at the loop index: GITHUB_REPOSITORY, GIT_REPOSITORY
and URL set the source (consuming their value), VERSION parses its value into
the version field, GIT_TAG stores its value as both git_tag and version of a
fresh CPMVersion, OPTIONS collects arguments up to a stop keyword into the
options map, and any other argument (including the NAME keyword and its
value) is passed over.  A keyword whose value argument is missing or not
string-valued matches no branch and is likewise passed over, exactly as the
short-circuiting conditions of the C++ arrange; on a single remaining
argument every branch therefore degenerates to ending the loop with the
package unchanged (OPTIONS included, whose collection is then empty). -/
def parse_cpm_full_args (package : CPMAddPackage) : List Expr → CPMAddPackage
  | [] => package
  | [_] => package
  | a :: b :: rest2 =>
    match get_string_value a with
    | .error _ => parse_cpm_full_args package (b :: rest2)
    | .ok key =>
      if key == "GITHUB_REPOSITORY" then
        match get_string_value b with
        | .ok v =>
          parse_cpm_full_args { package with source_type := .GitHub, source := v } rest2
        | .error _ => parse_cpm_full_args package (b :: rest2)
      else if key == "GIT_REPOSITORY" then
        match get_string_value b with
        | .ok v =>
          parse_cpm_full_args { package with source_type := .GitURL, source := v } rest2
        | .error _ => parse_cpm_full_args package (b :: rest2)
      else if key == "URL" then
        match get_string_value b with
        | .ok v =>
          parse_cpm_full_args { package with source_type := .URL, source := v } rest2
        | .error _ => parse_cpm_full_args package (b :: rest2)
      else if key == "VERSION" then
        match get_string_value b with
        | .ok v =>
          match parse_version_string v with
          | .ok ver => parse_cpm_full_args { package with version := some ver } rest2
          | .error _ => parse_cpm_full_args package rest2
        | .error _ => parse_cpm_full_args package (b :: rest2)
      else if key == "GIT_TAG" then
        match get_string_value b with
        | .ok v =>
          parse_cpm_full_args
            { package with version := some { version := v, git_tag := v } } rest2
        | .error _ => parse_cpm_full_args package (b :: rest2)
      else if key == "OPTIONS" then
        parse_cpm_full_args
          (parse_options_block package (collect_option_args (b :: rest2)).1)
          (collect_option_args (b :: rest2)).2
      else parse_cpm_full_args package (b :: rest2)
termination_by l => l.length
decreasing_by
  all_goals simp_wf
  all_goals first
    | omega
    | exact Nat.lt_succ_of_le (collect_option_args_length_le _)

/-- Mirrors CPMParser::parse_cpm_add_package_full: the package is created via
cpm_full_get_name and the keyword loop fills in the remaining fields; a
package that cannot be named is the CPMAddPackage-requires-NAME error. -/
def parse_cpm_add_package_full (args : List Expr) : Except String CPMAddPackage :=
  match cpm_full_get_name args with
  | none => .error "CPMAddPackage requires NAME"
  | some (name, start) =>
    .ok (parse_cpm_full_args { name := name } (args.drop start))

/-- Mirrors CPMParser::parse_cpm_add_package: no arguments is an error; a
single string-valued argument matching the GitHub shorthand goes to the
shorthand parser; everything else goes to the full keyword syntax. -/
def parse_cpm_add_package (args : List Expr) : Except String CPMAddPackage :=
  match args with
  | [] => .error "CPMAddPackage requires arguments"
  | [a] =>
    match get_string_value a with
    | .ok str =>
      if is_github_shorthand str then parse_cpm_add_package_shorthand str
      else parse_cpm_add_package_full [a]
    | .error _ => parse_cpm_add_package_full [a]
  | _ => parse_cpm_add_package_full args

/-! Helper lemmas shared by the claim theorems. -/

/-- Writing a key and reading it back yields the written entry. -/
theorem assoc_get_set {α : Type} (m : List (String × α)) (k : String) (v : α) :
    assoc_get (assoc_set m k v) k = some v := by
  induction m with
  | nil => simp [assoc_set, assoc_get]
  | cons p rest ih =>
    obtain ⟨k', v'⟩ := p
    by_cases h : k' = k
    · simp [assoc_set, assoc_get, h]
    · simp [assoc_set, assoc_get, h, ih]

/-- update_first_target is the identity when no target carries the name. -/
theorem update_first_target_of_no_match (name : String) (f : Target → Target)
    (ts : List Target) (h : ∀ t ∈ ts, t.name ≠ name) :
    update_first_target name f ts = ts := by
  induction ts with
  | nil => simp [update_first_target]
  | cons t rest ih =>
    have ht : t.name ≠ name := h t (by simp)
    simp [update_first_target, ht]
    exact ih (fun u hu => h u (by simp [hu]))

/-! The statements and programs named in the claims. -/

/-- The AST of project(simple-library VERSION 1.0.0) as Parser::parse_file
produces it: a CommandCall whose arguments are the three unquoted string
literals (none of them is a boolean keyword or numeric, see
Parser::parse_unquoted_argument). -/
def c1_statements : List Node :=
  [.cmd "project"
    [.stringLit "simple-library" false, .stringLit "VERSION" false,
     .stringLit "1.0.0" false]]

/-- C1: evaluating project(name VERSION v) stores PROJECT_NAME and
CMAKE_PROJECT_NAME at Certain confidence, but the claim's second half fails on
the code: evaluate_project_command never inspects the VERSION argument, so no
PROJECT_VERSION variable exists after evaluation and the ProjectAnalysis
produced by analyze carries an empty project_version instead of 1.0.0. -/
theorem c1_project_version_never_stored :
    ((evalNode empty_context.initialize_builtin_variables (.file c1_statements)).1.get_variable
        "PROJECT_NAME" = some ⟨.str "simple-library", .Certain⟩) ∧
    ((evalNode empty_context.initialize_builtin_variables (.file c1_statements)).1.get_variable
        "CMAKE_PROJECT_NAME" = some ⟨.str "simple-library", .Certain⟩) ∧
    ((evalNode empty_context.initialize_builtin_variables (.file c1_statements)).1.get_variable
        "PROJECT_VERSION" = none) ∧
    (analyze c1_statements).map ProjectAnalysis.project_name = .ok "simple-library" ∧
    (analyze c1_statements).map ProjectAnalysis.project_version = .ok "" :=
  ⟨rfl, rfl, rfl, rfl, rfl⟩

/-- The root context of CMakeFileEvaluator on a Unix build host. -/
def unix_root_context : EvaluationContext :=
  empty_context.initialize_builtin_variables

/-- The AST of if(WIN32) set(LIB_TYPE SHARED) else() set(LIB_TYPE STATIC)
endif() as the parser produces it: the condition WIN32 is an Identifier token,
which Parser::parse_primary_expression sends through parse_unquoted_argument,
yielding an unquoted StringLiteral (it is neither a boolean keyword nor
numeric); the set arguments likewise. -/
def c2_program : Node :=
  .ifStmt (.stringLit "WIN32" false)
    [.cmd "set" [.stringLit "LIB_TYPE" false, .stringLit "SHARED" false]]
    []
    [.cmd "set" [.stringLit "LIB_TYPE" false, .stringLit "STATIC" false]]

/-- C2: on a Unix host the builtin WIN32 is seeded to the falsy empty string,
but the claim fails on the code: the if condition is the unquoted string
literal WIN32, whose evaluation interpolates nothing and yields the non-empty
(hence truthy) text WIN32 itself rather than the variable's value, so the THEN
branch runs and LIB_TYPE becomes SHARED with Certain confidence, not STATIC.
The seeded platform variable is never consulted
(CMakeEvaluator::evaluate_platform_check has no callers). -/
theorem c2_unix_platform_branch_takes_then :
    (unix_root_context.get_variable "WIN32" = some ⟨.str "", .Certain⟩) ∧
    is_truthy (Value.str "") = false ∧
    evaluate_condition unix_root_context (.stringLit "WIN32" false) = true ∧
    ((evalNode unix_root_context c2_program).1.get_variable "LIB_TYPE"
      = some ⟨.str "SHARED", .Certain⟩) :=
  ⟨rfl, rfl, rfl, rfl⟩

/-- C3 counterexample: parsing the shorthand CPMAddPackage(gh:fmtlib/fmt(at)10.0.0)
does NOT mark the version exact - the at-sign is consumed by the shorthand
regex before parse_version_string sees the bare 10.0.0, so the exact flag
keeps its false default, refuting the claimed exact == true. -/
theorem c3_shorthand_version_not_exact :
    (parse_cpm_add_package [.stringLit "gh:fmtlib/fmt@10.0.0" true]).map
      (fun p => p.version.map CPMVersion.exact) ≠ .ok (some true) := by
  have hcomp : (parse_cpm_add_package [.stringLit "gh:fmtlib/fmt@10.0.0" true]).map
      (fun p => p.version.map CPMVersion.exact) = .ok (some false) := rfl
  rw [hcomp]
  simp

/-- C3 amended: the shorthand yields a node named fmt with GitHub source
fmtlib/fmt and version string 10.0.0, but with the exact flag false (and no
git_tag): exactness is only ever set when a version string itself begins with
an at-sign, which the shorthand regex has already stripped. -/
theorem c3_shorthand_parse :
    parse_cpm_add_package [.stringLit "gh:fmtlib/fmt@10.0.0" true] =
      .ok { name := "fmt", source_type := .GitHub, source := "fmtlib/fmt",
            version := some { version := "10.0.0", exact := false, git_tag := "" } } :=
  rfl

/-- C4: a string literal holding an unresolvable reference keeps its literal
text, but the claim's confidence bound fails on the code:
interpolate_string always returns its success variant (unresolved references
are skipped, not reported), so visit(StringLiteral) never reaches its
Uncertain fallback and returns the preserved string with Certain confidence. -/
theorem c4_unresolved_interpolation_stays_certain :
    empty_context.get_variable "PREFIX" = none ∧
    empty_context.get_cache_variable "PREFIX" = none ∧
    evalExpr empty_context (.stringLit "$\x7bPREFIX\x7d" true)
      = ⟨.str "$\x7bPREFIX\x7d", .Certain⟩ :=
  ⟨rfl, rfl, rfl⟩

/-- A token stream on which the claimed synchronize behaviour diverges from
the code: position 1 holds the identifier target_link_libraries (not preceded
by a Newline), position 2 is Eof. -/
def c7_tokens : List Token :=
  [{ type := .Identifier, value := some "set" },
   { type := .Identifier, value := some "target_link_libraries" },
   { type := .Eof }]

/-- C7: the claim's statement-starter set fails on the code.  The C++ compares
the identifier with operator== against the literals target_ and find_ rather
than testing a prefix, so an identifier such as target_link_libraries is NOT a
stopping point (first conjunct) while the never-occurring literal target_ is
(second conjunct); started at position 1 of c7_tokens, synchronize therefore
advances past the target_-prefixed command to the Eof at position 2 instead of
stopping at 1 as the claim requires. -/
theorem c7_synchronize_exact_match_only :
    sync_token_is_starter { type := .Identifier, value := some "target_link_libraries" } = false ∧
    is_sync_statement_starter "target_" = true ∧
    is_sync_statement_starter "find_" = true ∧
    synchronize c7_tokens 1 = 2 ∧
    (c7_tokens.getD 2 eof_token).type = TokenType.Eof :=
  ⟨rfl, rfl, rfl, rfl, rfl⟩

/-- C5: evaluation of an IfStatement touches the context only through the
statements of the taken branch.  A true condition makes the resulting context
exactly the sequential evaluation of the then branch, independent of the
elseif entries and the else branch (they are skipped entirely); a false
condition makes the result independent of the then branch (it causes no
context change). -/
theorem c5_if_branch_isolation (ctx : EvaluationContext) (cond : Expr)
    (tB tB' eiB eiB' eB eB' : List Node) :
    (evaluate_condition ctx cond = true →
      (evalNode ctx (.ifStmt cond tB eiB eB)).1 = evalNodes ctx tB ∧
      evalNode ctx (.ifStmt cond tB eiB eB) = evalNode ctx (.ifStmt cond tB eiB' eB')) ∧
    (evaluate_condition ctx cond = false →
      evalNode ctx (.ifStmt cond tB eiB eB) = evalNode ctx (.ifStmt cond tB' eiB eB)) := by
  refine ⟨fun h => ⟨?_, ?_⟩, fun h => ?_⟩ <;> simp [evalNode, h]

/-- A set command used by the c5 witness. -/
def c5_set_a : Node := .cmd "set" [.stringLit "A" false, .stringLit "one" false]

/-- Another set command used by the c5 witness. -/
def c5_set_b : Node := .cmd "set" [.stringLit "B" false, .stringLit "two" false]

/-- Witness for c5_if_branch_isolation at concrete branches and conditions. -/
theorem c5_if_branch_isolation_witness :
    ((evalNode empty_context (.ifStmt (.booleanLit true "ON") [c5_set_a] [c5_set_b] [c5_set_b])).1
        = evalNodes empty_context [c5_set_a] ∧
      evalNode empty_context (.ifStmt (.booleanLit true "ON") [c5_set_a] [c5_set_b] [c5_set_b])
        = evalNode empty_context (.ifStmt (.booleanLit true "ON") [c5_set_a] [] [])) ∧
    (evalNode empty_context (.ifStmt (.booleanLit false "OFF") [c5_set_a] [] [c5_set_b])
      = evalNode empty_context (.ifStmt (.booleanLit false "OFF") [c5_set_b] [] [c5_set_b])) :=
  ⟨(c5_if_branch_isolation empty_context (.booleanLit true "ON")
      [c5_set_a] [c5_set_a] [c5_set_b] [] [c5_set_b] []).1 rfl,
   (c5_if_branch_isolation empty_context (.booleanLit false "OFF")
      [c5_set_a] [c5_set_b] [] [] [c5_set_b] []).2 rfl⟩

/-- C6: an option command with name, description and default stores exactly
one cache variable - the evaluated name bound to ON when the evaluated default
renders as ON, TRUE, YES or 1 and to OFF otherwise, at Uncertain confidence -
and leaves the regular variable map (and the target list) unchanged. -/
theorem c6_option_sets_cache_only (ctx : EvaluationContext) (a0 a1 a2 : Expr) :
    evalNode ctx (.cmd "option" [a0, a1, a2]) =
      (ctx.set_cache_variable (value_to_string (evalExpr ctx a0).value)
        (.str (if value_to_string (evalExpr ctx a2).value == "ON" ||
                  value_to_string (evalExpr ctx a2).value == "TRUE" ||
                  value_to_string (evalExpr ctx a2).value == "YES" ||
                  value_to_string (evalExpr ctx a2).value == "1"
               then "ON" else "OFF")) .Uncertain,
       .ok ⟨.str "", .Certain⟩) ∧
    (evalNode ctx (.cmd "option" [a0, a1, a2])).1.variables_ = ctx.variables_ ∧
    (evalNode ctx (.cmd "option" [a0, a1, a2])).1.targets_ = ctx.targets_ ∧
    (evalNode ctx (.cmd "option" [a0, a1, a2])).1.get_cache_variable
        (value_to_string (evalExpr ctx a0).value) =
      some ⟨.str (if value_to_string (evalExpr ctx a2).value == "ON" ||
                     value_to_string (evalExpr ctx a2).value == "TRUE" ||
                     value_to_string (evalExpr ctx a2).value == "YES" ||
                     value_to_string (evalExpr ctx a2).value == "1"
                  then "ON" else "OFF"), .Uncertain⟩ := by
  refine ⟨rfl, rfl, rfl, ?_⟩
  show (ctx.set_cache_variable _ _ _).get_cache_variable _ = _
  simp [EvaluationContext.set_cache_variable, EvaluationContext.get_cache_variable,
    assoc_get_set]

/-- The character class the normalized names are drawn from. -/
def valid_name_char (c : Char) : Bool :=
  c.isAlphanum || c = '_' || c = '-'

/-- Whether a character list starts with a decimal digit (the guard of the
lib_ prefix in normalize_target_name). -/
def starts_with_digit : List Char → Bool
  | [] => false
  | c :: _ => c.isDigit

/-- normalize_char only produces characters of the valid class. -/
theorem normalize_char_valid (c : Char) : valid_name_char (normalize_char c) = true := by
  by_cases h : (c.isAlphanum || c = '_' || c = '-') = true
  · rw [normalize_char, if_pos h]; exact h
  · rw [normalize_char, if_neg h]; decide

/-- normalize_char keeps characters that are already valid. -/
theorem normalize_char_of_valid {c : Char} (h : valid_name_char c = true) :
    normalize_char c = c := by
  unfold valid_name_char at h
  rw [normalize_char, if_pos h]

/-- The mapped character list is entirely valid. -/
theorem map_normalize_all_valid (cs : List Char) :
    (cs.map normalize_char).all valid_name_char = true := by
  induction cs with
  | nil => rfl
  | cons c rest ih => simp [List.all_cons, normalize_char_valid, ih]

/-- Mapping normalize_char over an all-valid list is the identity. -/
theorem map_normalize_of_all_valid {cs : List Char}
    (h : cs.all valid_name_char = true) : cs.map normalize_char = cs := by
  induction cs with
  | nil => rfl
  | cons c rest ih =>
    simp only [List.all_cons, Bool.and_eq_true] at h
    simp [normalize_char_of_valid h.1, ih h.2]

/-- Branch-free description of normalize_chars via starts_with_digit. -/
theorem normalize_chars_eq (cs : List Char) :
    normalize_chars cs =
      if starts_with_digit (cs.map normalize_char) = true
      then 'l' :: 'i' :: 'b' :: '_' :: cs.map normalize_char
      else cs.map normalize_char := by
  unfold normalize_chars
  cases cs.map normalize_char with
  | nil => simp [starts_with_digit]
  | cons c m' =>
    by_cases hd : c.isDigit = true <;> simp [starts_with_digit, hd]

/-- normalize_chars fixes every all-valid list without a leading digit. -/
theorem normalize_chars_of_all_valid {cs : List Char}
    (h : cs.all valid_name_char = true) (h2 : starts_with_digit cs = false) :
    normalize_chars cs = cs := by
  rw [normalize_chars_eq, map_normalize_of_all_valid h, h2]
  simp

/-- The output of normalize_chars is entirely valid. -/
theorem normalize_chars_all_valid (cs : List Char) :
    (normalize_chars cs).all valid_name_char = true := by
  rw [normalize_chars_eq]
  by_cases hd : starts_with_digit (cs.map normalize_char) = true
  · rw [if_pos hd]
    simp only [List.all_cons, Bool.and_eq_true]
    exact ⟨by decide, by decide, by decide, by decide, map_normalize_all_valid cs⟩
  · rw [if_neg hd]
    exact map_normalize_all_valid cs

/-- The output of normalize_chars never starts with a digit. -/
theorem normalize_chars_no_digit_start (cs : List Char) :
    starts_with_digit (normalize_chars cs) = false := by
  rw [normalize_chars_eq]
  by_cases hd : starts_with_digit (cs.map normalize_char) = true
  · rw [if_pos hd]
    rfl
  · rw [if_neg hd]
    simpa using hd

/-- C8: normalize_target_name is idempotent, its output contains only
characters of the class letters, digits, underscore and dash, and the output
never starts with a decimal digit. -/
theorem c8_normalize_idempotent_and_valid (s : String) :
    normalize_target_name (normalize_target_name s) = normalize_target_name s ∧
    (normalize_target_name s).toList.all valid_name_char = true ∧
    starts_with_digit (normalize_target_name s).toList = false := by
  have htl : (String.mk (normalize_chars s.toList)).toList = normalize_chars s.toList := rfl
  unfold normalize_target_name
  refine ⟨?_, ?_, ?_⟩
  · rw [htl, normalize_chars_of_all_valid (normalize_chars_all_valid _)
      (normalize_chars_no_digit_start _)]
  · rw [htl]; exact normalize_chars_all_valid _
  · rw [htl]; exact normalize_chars_no_digit_start _

/-- Rewriting a structure field with its own value is the identity. -/
theorem ctx_targets_update_self (ctx : EvaluationContext) :
    { ctx with targets_ := ctx.targets_ } = ctx := rfl

/-- C9: the library rule template always emits the headers glob attribute
line, and its output never depends on the target's header list - explicit
header names are not serialized into a cxx_library rule. -/
theorem c9_cxx_library_headers_glob (target : MappedTarget) :
    (∃ pre post, CxxLibraryTemplate_generate target = pre ++ headers_glob_line ++ post) ∧
    CxxLibraryTemplate_generate target =
      CxxLibraryTemplate_generate { target with headers := [] } := by
  constructor
  · refine ⟨"cxx_library(\n" ++ ("    name = \"" ++ target.name ++ "\",\n") ++
      (if !target.srcs.isEmpty then
        "    srcs = [\n" ++ String.join (target.srcs.map quoted_item_line) ++ "    ],\n"
       else ""),
      "    visibility = [\"PUBLIC\"],\n" ++
      ("    header_namespace = \"" ++ target.name ++ "\",\n") ++
      (if !target.deps.isEmpty then
        "    deps = [\n" ++ String.join (target.deps.map quoted_item_line) ++ "    ],\n"
       else "") ++
      String.join (target.properties.map (fun kv => "    " ++ kv.1 ++ " = " ++ kv.2 ++ ",\n")) ++
      ")", ?_⟩
    simp [CxxLibraryTemplate_generate, ite_self, String.append_assoc]
  · simp [CxxLibraryTemplate_generate, ite_self]

/-- C10: a property-setter command naming a target absent from the context's
target list succeeds with an empty Certain value and leaves the whole context
unchanged; no analysis error is produced. -/
theorem c10_property_setters_ignore_unknown_target (ctx : EvaluationContext)
    (a0 a1 : Expr) (rest : List Expr)
    (h : ∀ t ∈ ctx.targets_, t.name ≠ value_to_string (evalExpr ctx a0).value) :
    evalNode ctx (.cmd "target_include_directories" (a0 :: a1 :: rest))
      = (ctx, .ok ⟨.str "", .Certain⟩) ∧
    evalNode ctx (.cmd "target_link_libraries" (a0 :: a1 :: rest))
      = (ctx, .ok ⟨.str "", .Certain⟩) ∧
    evalNode ctx (.cmd "target_compile_definitions" (a0 :: a1 :: rest))
      = (ctx, .ok ⟨.str "", .Certain⟩) := by
  have hu := update_first_target_of_no_match (value_to_string (evalExpr ctx a0).value)
  refine ⟨?_, ?_, ?_⟩ <;>
    simp [evalNode, evaluate_command, evaluate_target_include_directories_command,
      evaluate_target_link_libraries_command, evaluate_target_compile_definitions_command,
      hu _ _ h, ctx_targets_update_self]

/-- A context holding one target named calculator, for the c10 witness. -/
def c10_context : EvaluationContext :=
  empty_context.add_target
    { name := "calculator", type := .StaticLibrary,
      sources := ["src/calculator.cpp"], source_directory := current_path }

/-- Witness for c10_property_setters_ignore_unknown_target: the three setters
aimed at the absent target missing leave the calculator context untouched. -/
theorem c10_property_setters_witness :
    evalNode c10_context (.cmd "target_include_directories"
        [.stringLit "missing" false, .stringLit "include" false])
      = (c10_context, .ok ⟨.str "", .Certain⟩) ∧
    evalNode c10_context (.cmd "target_link_libraries"
        [.stringLit "missing" false, .stringLit "include" false])
      = (c10_context, .ok ⟨.str "", .Certain⟩) ∧
    evalNode c10_context (.cmd "target_compile_definitions"
        [.stringLit "missing" false, .stringLit "include" false])
      = (c10_context, .ok ⟨.str "", .Certain⟩) :=
  c10_property_setters_ignore_unknown_target c10_context
    (.stringLit "missing" false) (.stringLit "include" false) [] (by decide)

end FinchSpec
